import Mathlib

/-!
Verification development for the CodeBlocks frontend client
(src/frontend/script.js): a shallow embedding of the client's pure logic
(string parsing/formatting, list filtering, HTML rendering templates) and of
its stateful user-action handlers (load / create / update / delete), together
with theorems settling the specification's claims.

JavaScript strings are modelled as Lean `String` (lists of characters), with
the JS string primitives (`split`, `join`, `trim`, `toLowerCase`, `includes`,
`parseInt`) re-implemented character-by-character below, restricted to the
Unicode-simple (ASCII) behaviour the program exercises.
-/

namespace CodeBlocksJs

/-! ## Model of the JavaScript string primitives -/

/-- Whitespace characters recognised by `String.prototype.trim` (ASCII part). -/
def jsWhitespace (c : Char) : Bool :=
  c = ' ' || c = '\t' || c = '\n' || c = '\r' || c = '\x0b' || c = '\x0c'

/-- List-level model of `String.prototype.trim`: drop leading and trailing
whitespace. -/
def jsTrimList (cs : List Char) : List Char :=
  ((cs.dropWhile jsWhitespace).reverse.dropWhile jsWhitespace).reverse

/-- Model of `String.prototype.trim`. -/
def jsTrim (s : String) : String := ⟨jsTrimList s.data⟩

/-- List-level model of `String.prototype.split` with a one-character
separator: `"".split(sep)` is `[""]`, and every separator occurrence opens a
new chunk. -/
def jsSplitList (sep : Char) : List Char → List (List Char)
  | [] => [[]]
  | c :: cs =>
    match jsSplitList sep cs with
    | [] => [[]]
    | h :: t => if c = sep then [] :: h :: t else (c :: h) :: t

/-- Model of `String.prototype.split` with a one-character separator. -/
def jsSplit (sep : Char) (s : String) : List String :=
  (jsSplitList sep s.data).map (fun cs => ⟨cs⟩)

/-- List-level model of `Array.prototype.join` with a one-character
separator. -/
def jsJoinList (sep : Char) : List (List Char) → List Char
  | [] => []
  | [x] => x
  | x :: y :: t => x ++ sep :: jsJoinList sep (y :: t)

/-- Model of `Array.prototype.join` with a one-character separator. -/
def jsJoin (sep : Char) (xs : List String) : String :=
  ⟨jsJoinList sep (xs.map String.data)⟩

/-- ASCII model of `String.prototype.toLowerCase` on one character. -/
def jsLowerChar (c : Char) : Char :=
  if 65 ≤ c.toNat ∧ c.toNat ≤ 90 then Char.ofNat (c.toNat + 32) else c

/-- ASCII model of `String.prototype.toLowerCase`. -/
def jsToLower (s : String) : String := ⟨s.data.map jsLowerChar⟩

/-- Does `needle` occur at the head of `hay`? -/
def leadsWith : List Char → List Char → Bool
  | [], _ => true
  | _ :: _, [] => false
  | a :: as, b :: bs => a = b && leadsWith as bs

/-- Does `needle` occur somewhere inside `hay`? -/
def containsSub (needle : List Char) : List Char → Bool
  | [] => leadsWith needle []
  | b :: bs => leadsWith needle (b :: bs) || containsSub needle bs

/-- Model of `String.prototype.includes`. -/
def jsIncludes (s needle : String) : Bool := containsSub needle.data s.data

/-! ## Model of `parseInt` (as used after `.trim()` on the input) -/

/-- Decimal digit value of a character, if any. -/
def decDigit? (c : Char) : Option Nat :=
  if 48 ≤ c.toNat ∧ c.toNat ≤ 57 then some (c.toNat - 48) else none

/-- Hexadecimal digit value of a character, if any. -/
def hexDigit? (c : Char) : Option Nat :=
  if 48 ≤ c.toNat ∧ c.toNat ≤ 57 then some (c.toNat - 48)
  else if 97 ≤ c.toNat ∧ c.toNat ≤ 102 then some (c.toNat - 87)
  else if 65 ≤ c.toNat ∧ c.toNat ≤ 70 then some (c.toNat - 55)
  else none

/-- Accumulate the longest prefix of decimal digits; `none` means no digit
has been seen yet (`parseInt` yields `NaN`). -/
def decDigitsAcc : List Char → Option Nat → Option Nat
  | [], acc => acc
  | c :: cs, acc =>
    match decDigit? c with
    | some d => decDigitsAcc cs (some (10 * acc.getD 0 + d))
    | none => acc

/-- Accumulate the longest prefix of hexadecimal digits. -/
def hexDigitsAcc : List Char → Option Nat → Option Nat
  | [], acc => acc
  | c :: cs, acc =>
    match hexDigit? c with
    | some d => hexDigitsAcc cs (some (16 * acc.getD 0 + d))
    | none => acc

/-- Unsigned part of `parseInt`: a `0x`/`0X` prefix selects base 16,
otherwise the longest decimal-digit prefix is taken. -/
def jsParseUnsigned (cs : List Char) : Option Nat :=
  match cs with
  | '0' :: 'x' :: rest => hexDigitsAcc rest none
  | '0' :: 'X' :: rest => hexDigitsAcc rest none
  | _ => decDigitsAcc cs none

/-- List-level model of the global `parseInt` (radix argument omitted):
skip leading whitespace, read an optional sign, then the longest digit
prefix; `none` models `NaN`. -/
def jsParseIntList (cs : List Char) : Option Int :=
  match cs.dropWhile jsWhitespace with
  | '-' :: rest => (jsParseUnsigned rest).map (fun n => -(n : Int))
  | '+' :: rest => (jsParseUnsigned rest).map (fun n => (n : Int))
  | other => (jsParseUnsigned other).map (fun n => (n : Int))

/-- Model of the global `parseInt`. -/
def jsParseInt (s : String) : Option Int := jsParseIntList s.data

/-! ## Model of `Response.json()` (JSON syntax acceptance)

The platform primitive `response.json()` resolves exactly when the response
body is syntactically valid JSON (in particular it rejects an empty body).
The recursive-descent acceptor below recognises the JSON grammar; arrays and
objects recurse on a fuel argument that is large enough for any input of the
given length. -/

/-- JSON insignificant whitespace. -/
def skipWsJson (cs : List Char) : List Char :=
  cs.dropWhile (fun c => c = ' ' || c = '\t' || c = '\n' || c = '\r')

/-- Consume the remainder of a JSON string literal (after the opening
quote), returning the input after the closing quote. -/
def jsonStringRest : List Char → Option (List Char)
  | [] => none
  | '"' :: rest => some rest
  | '\\' :: _ :: rest => jsonStringRest rest
  | _ :: rest => jsonStringRest rest

/-- Consume one or more decimal digits. -/
def jsonDigits : List Char → Option (List Char)
  | [] => none
  | c :: rest =>
    if (decDigit? c).isSome then some (rest.dropWhile (fun d => (decDigit? d).isSome))
    else none

/-- Consume the integer part of a JSON number (`0` or a nonzero-led digit
run). -/
def jsonIntRest : List Char → Option (List Char)
  | '0' :: rest => some rest
  | cs => jsonDigits cs

/-- Consume an optional fraction part. -/
def jsonFracRest (cs : List Char) : Option (List Char) :=
  match cs with
  | '.' :: rest => jsonDigits rest
  | _ => some cs

/-- Consume an optional exponent part. -/
def jsonExpRest (cs : List Char) : Option (List Char) :=
  match cs with
  | 'e' :: rest =>
    jsonDigits (match rest with | '+' :: r => r | '-' :: r => r | r => r)
  | 'E' :: rest =>
    jsonDigits (match rest with | '+' :: r => r | '-' :: r => r | r => r)
  | _ => some cs

/-- Consume a JSON number. -/
def jsonNumberRest (cs : List Char) : Option (List Char) := do
  let r1 ← jsonIntRest (match cs with | '-' :: r => r | r => r)
  let r2 ← jsonFracRest r1
  jsonExpRest r2

mutual

/-- Consume one JSON value. -/
def jsonValueRest : Nat → List Char → Option (List Char)
  | 0, _ => none
  | fuel + 1, cs =>
    match skipWsJson cs with
    | 'n' :: 'u' :: 'l' :: 'l' :: rest => some rest
    | 't' :: 'r' :: 'u' :: 'e' :: rest => some rest
    | 'f' :: 'a' :: 'l' :: 's' :: 'e' :: rest => some rest
    | '"' :: rest => jsonStringRest rest
    | '[' :: rest => jsonArrayRest fuel rest
    | '\x7b' :: rest => jsonObjectRest fuel rest
    | other => jsonNumberRest other

/-- Consume the inside of a JSON array (after `[`). -/
def jsonArrayRest : Nat → List Char → Option (List Char)
  | 0, _ => none
  | fuel + 1, cs =>
    match skipWsJson cs with
    | ']' :: rest => some rest
    | other => do
      let r ← jsonValueRest fuel other
      jsonArrayTail fuel r

/-- Consume `, value`* `]` after an array element. -/
def jsonArrayTail : Nat → List Char → Option (List Char)
  | 0, _ => none
  | fuel + 1, cs =>
    match skipWsJson cs with
    | ',' :: rest => do
      let r ← jsonValueRest fuel rest
      jsonArrayTail fuel r
    | ']' :: rest => some rest
    | _ => none

/-- Consume the inside of a JSON object (after the opening brace). -/
def jsonObjectRest : Nat → List Char → Option (List Char)
  | 0, _ => none
  | fuel + 1, cs =>
    match skipWsJson cs with
    | '\x7d' :: rest => some rest
    | '"' :: rest => do
      let r1 ← jsonStringRest rest
      let r2 ← (match skipWsJson r1 with | ':' :: r => some r | _ => none)
      let r3 ← jsonValueRest fuel r2
      jsonObjectTail fuel r3
    | _ => none

/-- Consume `, "key": value`* and the closing brace after an object
member. -/
def jsonObjectTail : Nat → List Char → Option (List Char)
  | 0, _ => none
  | fuel + 1, cs =>
    match skipWsJson cs with
    | '\x7d' :: rest => some rest
    | ',' :: rest =>
      (match skipWsJson rest with
       | '"' :: r0 => do
         let r1 ← jsonStringRest r0
         let r2 ← (match skipWsJson r1 with | ':' :: r => some r | _ => none)
         let r3 ← jsonValueRest fuel r2
         jsonObjectTail fuel r3
       | _ => none)
    | _ => none

end

/-- Does the whole string parse as one JSON value (model of the success of
`response.json()`)? -/
def isValidJson (s : String) : Bool :=
  match jsonValueRest (2 * s.length + 2) s.data with
  | some rest => (skipWsJson rest).isEmpty
  | none => false

/-! ## Data model -/

/-- A code block as held in the client's in-memory list (`codeBlocks`).
`lineExplanations` is a JS object mapping line numbers to explanation
strings, modelled as an association list with distinct keys, listed in the
object's `Object.entries` order; a JS-`undefined` mapping is modelled as the
empty list (both are rendered with no clickable line). -/
structure CodeBlock where
  id : Int
  title : String
  category : String
  code : String
  explanation : String
  lineExplanations : List (Int × String)
  deriving Repr, DecidableEq

/-- Property read `lineExplanations[k]` on the association list. -/
def jsLookup (m : List (Int × String)) (k : Int) : Option String :=
  (m.find? (fun p => p.1 = k)).map (fun p => p.2)

/-- JS truthiness of a possibly-absent string property: `undefined` and the
empty string are falsy. -/
def truthyStr (o : Option String) : Bool :=
  match o with
  | some s => !(s == "")
  | none => false

/-- Property assignment `m[k] = v` on a JS object: overwrite an existing
key in place, otherwise append. -/
def insertExpl (m : List (Int × String)) (k : Int) (v : String) :
    List (Int × String) :=
  if (m.find? (fun p => p.1 = k)).isSome then
    m.map (fun p => if p.1 = k then (k, v) else p)
  else m ++ [(k, v)]

/-! ## Line-explanation parsing and formatting

The same parsing code appears twice in the source: in `saveEdit`
(script.js lines 381-393) and in `saveCodeBlock` (lines 464-478); both are
embedded by `parseLine` / `parseLineExplanations` below. -/

/-- One iteration of the parsing loop: `const parts = line.split(':')`,
require `parts.length >= 2`, `parseInt(parts[0].trim())`, and on success the
value is `parts.slice(1).join(':').trim()`. -/
def parseLine (line : String) : Option (Int × String) :=
  match jsSplit ':' line with
  | [] => none
  | [_] => none
  | p0 :: rest =>
    match jsParseInt (jsTrim p0) with
    | some k => some (k, jsTrim (jsJoin ':' rest))
    | none => none

/-- The whole parsing block: skip everything when the textarea text is
blank, otherwise fold the per-line parser over `text.split('\n')`,
assigning each parsed entry into a fresh object. -/
def parseLineExplanations (text : String) : List (Int × String) :=
  if jsTrim text = "" then []
  else
    (jsSplit '\n' text).foldl
      (fun m line =>
        match parseLine line with
        | some kv => insertExpl m kv.1 kv.2
        | none => m)
      []

/-- `formatLineExplanationsForEdit` (script.js lines 352-357):
`Object.entries(m).map(([line, e]) => line + ":" + e).join('\n')`; a missing
mapping gives the empty string, as does the empty mapping. -/
def formatLineExplanationsForEdit (m : List (Int × String)) : String :=
  jsJoin '\n' (m.map (fun p => toString p.1 ++ ":" ++ p.2))

/-! ## API client -/

/-- The body `{...}` sent with a create/update call: JS object literals with
a subset of the five block fields, absent fields modelled as `none`. -/
structure BlockInput where
  title : Option String := none
  category : Option String := none
  code : Option String := none
  explanation : Option String := none
  lineExplanations : Option (List (Int × String)) := none
  deriving Repr, DecidableEq

/-- How many of the five fields the payload carries. -/
def BlockInput.fieldsSet (p : BlockInput) : Nat :=
  [p.title.isSome, p.category.isSome, p.code.isSome, p.explanation.isSome,
    p.lineExplanations.isSome].count true

/-- The payload `saveEdit` sends (script.js lines 397-401): code,
explanation and the parsed line explanations only. -/
def saveEditPayload (newCode newExplanation lineExplanationsText : String) :
    BlockInput :=
  { code := some newCode
    explanation := some newExplanation
    lineExplanations := some (parseLineExplanations lineExplanationsText) }

/-- The payload the modal's `saveCodeBlock` sends (lines 486-501): all five
fields. -/
def modalPayload (title category code explanation lineText : String) :
    BlockInput :=
  { title := some title
    category := some category
    code := some code
    explanation := some explanation
    lineExplanations := some (parseLineExplanations lineText) }

/-- Outcome of the browser `fetch` of one request. -/
inductive FetchResult where
  | response (status : Nat) (body : String)
  | transportFailure
  deriving Repr, DecidableEq

/-- An outbound HTTP request (method, endpoint, optional JSON body). -/
structure Request where
  method : String
  endpoint : String
  payload : Option BlockInput := none
  deriving Repr, DecidableEq

/-- `apiRequest` (script.js lines 25-44): throw on `!response.ok`
(`response.ok` is status 200-299), then `return await response.json()` —
which itself rejects when the body is not valid JSON; a transport failure
of `fetch` also rejects. The success value is the (JSON) body. -/
def apiRequest (fr : FetchResult) : Except String String :=
  match fr with
  | .transportFailure => .error "API request failed: TypeError"
  | .response status body =>
    if 200 ≤ status ∧ status < 300 then
      if isValidJson body then .ok body
      else .error "SyntaxError: unexpected end of JSON input"
    else .error ("HTTP error! status: " ++ toString status)

/-- The request issued by `deleteCodeBlock` (lines 73-77). -/
def deleteRequest (blockId : Int) : Request :=
  { method := "DELETE", endpoint := "/codeblocks/" ++ toString blockId }

/-- `deleteCodeBlock` (lines 73-77): await `apiRequest` on
`/codeblocks/{id}` with method DELETE and discard the value. -/
def deleteCodeBlock (blockId : Int) (fetch : Request → FetchResult) :
    Except String Unit :=
  (apiRequest (fetch (deleteRequest blockId))).map (fun _ => ())

/-- The request issued by `loadCodeBlocks` via `apiRequest('/codeblocks')`. -/
def listRequest : Request := { method := "GET", endpoint := "/codeblocks" }

/-- The request issued by `updateCodeBlock` (lines 65-71). -/
def putRequest (blockId : Int) (p : BlockInput) : Request :=
  { method := "PUT", endpoint := "/codeblocks/" ++ toString blockId,
    payload := some p }

/-- The request issued by `createCodeBlock` (lines 57-63). -/
def postRequest (p : BlockInput) : Request :=
  { method := "POST", endpoint := "/codeblocks", payload := some p }

/-! ## Rendering

The HTML template strings below keep the source's element structure, class
names and interpolation slots; insignificant indentation whitespace inside
the templates is elided. -/

/-- `escapeHtml` (script.js lines 413-417) assigns the text to a detached
div's `textContent` and reads back `innerHTML`, which escapes the three
HTML-active characters. -/
def escapeHtmlChar (c : Char) : List Char :=
  if c = '&' then "&amp;".data
  else if c = '<' then "&lt;".data
  else if c = '>' then "&gt;".data
  else [c]

/-- `escapeHtml` on a whole string. -/
def escapeHtml (s : String) : String := ⟨(s.data.map escapeHtmlChar).flatten⟩

/-- The markup for one code line (lines 181-186): the clickable class is
present iff the line has a (truthy) explanation, and the line text goes
through `escapeHtml`. -/
def codeLineHTML (lineNumber : Nat) (line : String) (clickable : Bool) :
    String :=
  "<div class=\"code-line " ++ (if clickable then "clickable" else "")
    ++ "\" data-line-number=\"" ++ toString lineNumber
    ++ "\"><div class=\"code-line-number\"></div><div class=\"code-line-text\">"
    ++ escapeHtml line ++ "</div></div>"

/-- The `hasExplanation` test of line 178:
`block.lineExplanations && block.lineExplanations[lineNumber]`. -/
def hasExplanation (b : CodeBlock) (lineNumber : Int) : Bool :=
  truthyStr (jsLookup b.lineExplanations lineNumber)

/-- The per-line rendering pass of `renderReadView` (lines 175-187):
`block.code.split('\n').map((line, index) => ...)`, producing for each
1-based position its line number, its clickability, and its markup. -/
def renderedCodeLines (b : CodeBlock) : List (Nat × Bool × String) :=
  (jsSplit '\n' b.code).enum.map
    (fun p =>
      let lineNumber := p.1 + 1
      let clickable := hasExplanation b (Int.ofNat lineNumber)
      (lineNumber, clickable, codeLineHTML lineNumber p.2 clickable))

/-- Opening segment of the read-view markup, up to the `<h3>` title slot. -/
def readViewSeg1 : String := "<div class=\"code-block\"><div class=\"code-header\"><h3>"

/-- Read-view markup between the title slot and the action buttons'
`data-id` slot. -/
def readViewSeg2 : String := "</h3><div class=\"code-actions\"><button class=\"edit-btn\" data-id=\""

/-- Read-view markup between the `data-id` slot and the code-lines slot. -/
def readViewSeg3 : String :=
  "\">Edit</button><button class=\"delete-btn\">Delete</button><button class=\"fullscreen-btn\">Fullscreen</button></div></div><div class=\"code-content\"><div class=\"code-lines\">"

/-- Read-view markup between the code-lines slot and the explanation
slot. -/
def readViewSeg4 : String :=
  "</div><div class=\"code-explanation\"><h4>Explanation</h4><p>"

/-- Closing segment of the read-view markup. -/
def readViewSeg5 : String := "</p></div></div></div>"

/-- `renderReadView`'s `codeViewer.innerHTML` template (lines 189-209):
the title and the general explanation are interpolated as-is; the code
lines arrive through `renderedCodeLines` (each escaped). -/
def renderReadViewHTML (b : CodeBlock) : String :=
  readViewSeg1 ++ b.title ++ readViewSeg2 ++ toString b.id ++ readViewSeg3
    ++ String.join ((renderedCodeLines b).map (fun t => t.2.2))
    ++ readViewSeg4 ++ b.explanation ++ readViewSeg5

/-- Opening segment of the explanation-popup markup, up to the line-number
slot. -/
def popupSeg1 : String :=
  "<div class=\"popup-header\"><strong>Line "

/-- Popup markup between the line-number slot and the content slot. -/
def popupSeg2 : String := "</strong></div><div class=\"popup-content\">"

/-- Closing segment of the popup markup. -/
def popupSeg3 : String := "</div>"

/-- The popup's `innerHTML` built by `showExplanationPopup`
(lines 275-280): the explanation text is interpolated as-is. -/
def popupHTML (lineNumber : Int) (explanation : String) : String :=
  popupSeg1 ++ toString lineNumber ++ popupSeg2 ++ explanation ++ popupSeg3

/-- `handleLineClick` (lines 242-265) on the displayed block: return (line
247's truthiness guard) unless the mapping has a truthy entry for the
clicked line number, else show the popup with that entry's text. The
result is the text shown in the popup, `none` when no popup opens. -/
def handleLineClick (block : CodeBlock) (lineNumber : Int) : Option String :=
  match jsLookup block.lineExplanations lineNumber with
  | some e => if e = "" then none else some e
  | none => none

/-- The sidebar filter of `renderBlocksList` (lines 105-114):
`searchTerm = search.value.toLowerCase()`; a block passes iff its lowercased
title or category includes the term, and the category filter is the empty
string or equals the block's category exactly. -/
def filteredBlocks (blocks : List CodeBlock) (searchValue category : String) :
    List CodeBlock :=
  let searchTerm := jsToLower searchValue
  blocks.filter
    (fun block =>
      (jsIncludes (jsToLower block.title) searchTerm
        || jsIncludes (jsToLower block.category) searchTerm)
      && (category == "" || block.category == category))

/-- The placeholder rendered when no block passes the filter (line 119). -/
def noBlocksHTML : String := "<p class=\"no-blocks\">No code blocks found</p>"

/-- One sidebar entry (lines 124-129); the active class compares
`currentBlockId === block.id`. -/
def blockItemHTML (currentBlockId : Option Int) (b : CodeBlock) : String :=
  "<div class=\"block-item "
    ++ (if currentBlockId = some b.id then "active" else "")
    ++ "\"><div class=\"block-title\">" ++ b.title
    ++ "</div><div class=\"block-meta\">" ++ b.category ++ "</div></div>"

/-- `renderBlocksList` (lines 105-133): the sidebar's content is the
placeholder when the filtered list is empty, and otherwise one entry per
filtered block. -/
def renderBlocksListHTML (blocks : List CodeBlock)
    (searchValue category : String) (currentBlockId : Option Int) : String :=
  let fb := filteredBlocks blocks searchValue category
  if fb.isEmpty then noBlocksHTML
  else String.join (fb.map (blockItemHTML currentBlockId))

/-- `renderEditView`'s `codeViewer.innerHTML` (lines 319-344), reduced to
its interpolation slots: the editable code, general explanation and the
serialized line explanations. -/
def renderEditViewHTML (b : CodeBlock) : String :=
  "<div class=\"code-block\"><div class=\"code-header\"><h3>Editing: "
    ++ b.title
    ++ "</h3></div><textarea id=\"edit-code\">" ++ escapeHtml b.code
    ++ "</textarea><textarea id=\"edit-explanation\">"
    ++ escapeHtml b.explanation
    ++ "</textarea><textarea id=\"edit-line-explanations\">"
    ++ formatLineExplanationsForEdit b.lineExplanations
    ++ "</textarea></div>"

/-- The empty-selection placeholder `handleDelete` writes into the viewer
(lines 229-233). -/
def noSelectionHTML : String :=
  "<div class=\"no-selection\"><p>Select a code block from the sidebar to view it</p></div>"

/-! ## Application state and the user-action handlers

The module-level mutable state of script.js (lines 4-8 plus the DOM nodes
the handlers write) is collected into `AppState`.  Each asynchronous handler
becomes a function from the backend's replies and the pre-state to an
`Except`-wrapped post-state; a `.error` result models the handler's promise
rejecting.  Every API call a handler performs is appended to `apiCalls`, and
every `alert(...)` to `alerts`. -/

/-- The client's state: the in-memory block list, the selection, the edit
flag, the rendered detail pane and sidebar, the category options, the two
filter inputs, the modal flag, plus the observation logs. -/
structure AppState where
  codeBlocks : List CodeBlock
  currentBlockId : Option Int
  isEditMode : Bool
  viewer : String
  sidebar : String
  categoryOptions : List String
  searchValue : String
  categorySel : String
  modalOpen : Bool
  alerts : List String
  apiCalls : List Request
  deriving Repr, DecidableEq

/-- One reply per backend endpoint: what each of the four awaited API
wrappers would produce (the parsed JSON on success, the thrown error
otherwise). -/
structure Backend where
  listResult : Except String (List CodeBlock)
  createResult : Except String CodeBlock
  updateResult : Except String CodeBlock
  deleteResult : Except String Unit

/-- Log one issued API call. -/
def logCall (r : Request) (s : AppState) : AppState :=
  { s with apiCalls := s.apiCalls ++ [r] }

/-- The distinct categories, first-seen order (`updateCategoryFilter`,
lines 136-146). -/
def dedupFirstSeen (l : List String) : List String :=
  l.foldl (fun acc c => if c ∈ acc then acc else acc ++ [c]) []

/-- The alert text of `loadCodeBlocks` (line 53). -/
def loadFailAlert : String :=
  "Failed to load code blocks. Make sure the backend server is running."

/-- The alert text of `handleDelete` (line 236). -/
def deleteFailAlert : String := "Failed to delete code block"

/-- The alert text of `saveEdit` (line 408). -/
def saveEditFailAlert : String := "Failed to save changes"

/-- The alert text of `saveCodeBlock` (line 514). -/
def saveBlockFailAlert : String := "Failed to save code block"

/-- `loadCodeBlocks` (lines 46-55): await the GET, replace `codeBlocks`,
re-render the sidebar and the category options; its own try/catch turns any
failure into an alert, so the returned promise never rejects (hence the
`Except` result, which the theorems show is always `.ok`). -/
def loadCodeBlocksE (env : Backend) (s : AppState) : Except String AppState :=
  let s1 := logCall listRequest s
  match env.listResult with
  | .ok blocks =>
    let s2 := { s1 with codeBlocks := blocks }
    .ok { s2 with
          sidebar := renderBlocksListHTML s2.codeBlocks s2.searchValue
            s2.categorySel s2.currentBlockId
          categoryOptions := dedupFirstSeen (s2.codeBlocks.map CodeBlock.category) }
  | .error _ => .ok { s1 with alerts := s1.alerts ++ [loadFailAlert] }

/-- `displayCodeBlock` (lines 149-170): set the selection, look the block
up in the (possibly just reloaded) list, and if found render the detail
pane in edit or read mode according to `isEditMode`. -/
def displayCodeBlock (id : Int) (s : AppState) : AppState :=
  let s1 := { s with currentBlockId := some id }
  match s1.codeBlocks.find? (fun b => b.id = id) with
  | none => s1
  | some b =>
    if s1.isEditMode then { s1 with viewer := renderEditViewHTML b }
    else { s1 with viewer := renderReadViewHTML b }

/-- `handleDelete` (lines 223-239): after the confirmation, await the
DELETE, reload, clear the viewer to the placeholder and clear the
selection; the catch alerts on failure.  Because `loadCodeBlocksE` never
rejects, the only state the catch can see is the post-DELETE one. -/
def handleDeleteE (confirmed : Bool) (blockId : Int) (env : Backend)
    (s : AppState) : Except String AppState :=
  if confirmed then
    let s1 := logCall (deleteRequest blockId) s
    match env.deleteResult with
    | .error _ => .ok { s1 with alerts := s1.alerts ++ [deleteFailAlert] }
    | .ok _ =>
      match loadCodeBlocksE env s1 with
      | .ok s2 => .ok { s2 with viewer := noSelectionHTML, currentBlockId := none }
      | .error _ => .ok { s1 with alerts := s1.alerts ++ [deleteFailAlert] }
  else .ok s

/-- `saveEdit` (lines 373-410): bail out silently when no block is
selected/found; otherwise parse the line-explanation textarea, await the
PUT carrying code, explanation and the parsed mapping, reload, leave edit
mode and redisplay the block; the catch alerts on failure. -/
def saveEditE (newCode newExplanation lineExplanationsText : String)
    (env : Backend) (s : AppState) : Except String AppState :=
  match s.currentBlockId with
  | none => .ok s
  | some cid =>
    match s.codeBlocks.find? (fun b => b.id = cid) with
    | none => .ok s
    | some _ =>
      let payload := saveEditPayload newCode newExplanation lineExplanationsText
      let s1 := logCall (putRequest cid payload) s
      match env.updateResult with
      | .error _ => .ok { s1 with alerts := s1.alerts ++ [saveEditFailAlert] }
      | .ok _ =>
        match loadCodeBlocksE env s1 with
        | .ok s2 => .ok (displayCodeBlock cid { s2 with isEditMode := false })
        | .error _ => .ok { s1 with alerts := s1.alerts ++ [saveEditFailAlert] }

/-- `saveCodeBlock` (lines 456-516): build the five-field payload, await
the PUT (when the modal carries an editing id) or the POST, reload, close
the modal, and when the edited block is the displayed one leave edit mode
and redisplay it; the catch alerts on failure. -/
def saveCodeBlockE (title category code explanation lineText : String)
    (editingId : Option Int) (env : Backend) (s : AppState) :
    Except String AppState :=
  let payload := modalPayload title category code explanation lineText
  let (result, s1) :=
    match editingId with
    | some id => (env.updateResult, logCall (putRequest id payload) s)
    | none => (env.createResult, logCall (postRequest payload) s)
  match result with
  | .error _ => .ok { s1 with alerts := s1.alerts ++ [saveBlockFailAlert] }
  | .ok _ =>
    match loadCodeBlocksE env s1 with
    | .ok s2 =>
      let s3 := { s2 with modalOpen := false }
      match editingId with
      | some id =>
        if s3.currentBlockId = some id then
          .ok (displayCodeBlock id { s3 with isEditMode := false })
        else .ok s3
      | none => .ok s3
    | .error _ => .ok { s1 with alerts := s1.alerts ++ [saveBlockFailAlert] }

/-! ## Proof-support definitions -/

/-- The decimal digit characters of a natural number, most significant
first; a recursion-friendly restatement of `Nat.toDigits 10` (the two are
proved equal below). -/
def decimalChars (n : Nat) : List Char :=
  if _h : n < 10 then [Nat.digitChar n]
  else decimalChars (n / 10) ++ [Nat.digitChar (n % 10)]
termination_by n
decreasing_by exact Nat.div_lt_self (by omega) (by omega)

/-- The HTTP-error message `apiRequest` throws for a 500 response. -/
def http500Error : String := "HTTP error! status: 500"

/-- A one-line block whose single line explanation is present but is the
empty string (exercises the truthiness test of `hasExplanation`). -/
def emptyExplBlock : CodeBlock :=
  { id := 1, title := "t", category := "c", code := "x", explanation := "e",
    lineExplanations := [(1, "")] }

/-- A concrete block used to instantiate universally quantified theorems. -/
def sampleBlock1 : CodeBlock :=
  { id := 1, title := "Hello", category := "basics", code := "print(1)",
    explanation := "prints", lineExplanations := [(1, "prints hi")] }

/-- A second concrete block. -/
def sampleBlock2 : CodeBlock :=
  { id := 2, title := "Loop", category := "control", code := "loop\nbody",
    explanation := "loops", lineExplanations := [] }

/-- A concrete pre-state with `sampleBlock1` loaded and selected. -/
def sampleState : AppState :=
  { codeBlocks := [sampleBlock1], currentBlockId := some 1, isEditMode := true,
    viewer := "v", sidebar := "s", categoryOptions := ["basics"],
    searchValue := "", categorySel := "", modalOpen := false,
    alerts := [], apiCalls := [] }

/-- A backend whose four endpoints all answer with HTTP 500 (as surfaced by
`apiRequest`). -/
def errorBackend : Backend :=
  { listResult := .error http500Error, createResult := .error http500Error,
    updateResult := .error http500Error, deleteResult := .error http500Error }

/-- A backend whose mutations succeed but whose list endpoint fails. -/
def reloadFailBackend : Backend :=
  { listResult := .error http500Error, createResult := .ok sampleBlock1,
    updateResult := .ok sampleBlock1, deleteResult := .ok () }

/-- A backend where every endpoint succeeds, answering the list request
with both sample blocks. -/
def okBackend : Backend :=
  { listResult := .ok [sampleBlock1, sampleBlock2],
    createResult := .ok sampleBlock2, updateResult := .ok sampleBlock1,
    deleteResult := .ok () }

end CodeBlocksJs

namespace CodeBlocksJs

/-! ## Character and digit lemmas -/

theorem decDigit?_bounds (c : Char) (h : (decDigit? c).isSome) :
    48 ≤ c.toNat ∧ c.toNat ≤ 57 := by
  unfold decDigit? at h
  split at h
  · assumption
  · simp at h

theorem digit_not_ws (c : Char) (h : (decDigit? c).isSome) :
    jsWhitespace c = false := by
  have hb := decDigit?_bounds c h
  by_contra hws
  have hws2 : jsWhitespace c = true := by
    cases hval : jsWhitespace c
    · exact absurd hval hws
    · rfl
  unfold jsWhitespace at hws2
  simp only [Bool.or_eq_true, decide_eq_true_eq] at hws2
  rcases hws2 with ((((h1 | h1) | h1) | h1) | h1) | h1 <;> subst h1 <;>
    exact absurd hb (by decide)

theorem digit_ne (c : Char) (h : (decDigit? c).isSome) :
    c ≠ ':' ∧ c ≠ '\n' ∧ c ≠ '-' ∧ c ≠ '+' := by
  have hb := decDigit?_bounds c h
  refine ⟨?_, ?_, ?_, ?_⟩ <;> rintro rfl <;> exact absurd hb (by decide)

theorem decDigit?_digitChar (m : Nat) (h : m < 10) :
    decDigit? (Nat.digitChar m) = some m := by
  interval_cases m <;> decide

theorem decimalChars_ne_nil (n : Nat) : decimalChars n ≠ [] := by
  rw [decimalChars]
  split <;> simp

theorem decimalChars_digits (n : Nat) :
    ∀ c ∈ decimalChars n, (decDigit? c).isSome := by
  induction n using Nat.strong_induction_on with
  | _ n ih =>
    rw [decimalChars]
    split
    · intro c hc
      rw [List.mem_singleton] at hc
      subst hc
      simp [decDigit?_digitChar n (by omega)]
    · intro c hc
      rw [List.mem_append] at hc
      rcases hc with hc | hc
      · exact ih (n / 10) (Nat.div_lt_self (by omega) (by omega)) c hc
      · rw [List.mem_singleton] at hc
        subst hc
        simp [decDigit?_digitChar _ (Nat.mod_lt n (by omega))]

theorem toDigitsCore_eq_decimalChars (fuel : Nat) :
    ∀ (n : Nat) (ds : List Char), n < fuel →
      Nat.toDigitsCore 10 fuel n ds = decimalChars n ++ ds := by
  induction fuel with
  | zero => intro n ds h; omega
  | succ f ih =>
    intro n ds h
    unfold Nat.toDigitsCore
    by_cases h10 : n / 10 = 0
    · have hn : n < 10 := by omega
      rw [if_pos h10, decimalChars, dif_pos hn, Nat.mod_eq_of_lt hn]
      rfl
    · have hn : ¬ n < 10 := by omega
      rw [if_neg h10, ih (n / 10) _ (by omega)]
      conv_rhs => rw [decimalChars]
      rw [dif_neg hn, List.append_assoc]
      rfl

theorem toDigits_eq_decimalChars (n : Nat) :
    Nat.toDigits 10 n = decimalChars n := by
  have h := toDigitsCore_eq_decimalChars (n + 1) n [] (Nat.lt_succ_self n)
  simpa [Nat.toDigits] using h

/-! ## Correctness of the `parseInt` model on decimal representations -/

theorem decDigitsAcc_append (xs ys : List Char) (a : Nat)
    (h : ∀ c ∈ xs, (decDigit? c).isSome) :
    decDigitsAcc (xs ++ ys) (some a) = decDigitsAcc ys (decDigitsAcc xs (some a)) := by
  induction xs generalizing a with
  | nil => rfl
  | cons c cs ih =>
    have hc := h c (by simp)
    obtain ⟨d, hd⟩ := Option.isSome_iff_exists.mp hc
    simp only [List.cons_append, decDigitsAcc, hd]
    exact ih _ (fun x hx => h x (by simp [hx]))

theorem decDigitsAcc_decimalChars (n : Nat) :
    ∀ a : Nat, decDigitsAcc (decimalChars n) (some a) =
      some (a * 10 ^ (decimalChars n).length + n) := by
  induction n using Nat.strong_induction_on with
  | _ n ih =>
    intro a
    by_cases hn : n < 10
    · rw [decimalChars, dif_pos hn]
      simp only [decDigitsAcc, decDigit?_digitChar n hn, Option.getD_some,
        List.length_singleton, pow_one]
      rw [Nat.mul_comm]
    · rw [decimalChars, dif_neg hn]
      rw [decDigitsAcc_append _ _ _ (decimalChars_digits (n / 10))]
      rw [ih (n / 10) (Nat.div_lt_self (by omega) (by omega)) a]
      have hmod : decDigit? (Nat.digitChar (n % 10)) = some (n % 10) :=
        decDigit?_digitChar _ (Nat.mod_lt n (by omega))
      simp only [decDigitsAcc, hmod, Option.getD_some, List.length_append,
        List.length_singleton]
      congr 1
      have hdm : 10 * (n / 10) + n % 10 = n := Nat.div_add_mod n 10
      have hpow : 10 ^ ((decimalChars (n / 10)).length + 1) =
          10 ^ (decimalChars (n / 10)).length * 10 := by
        rw [pow_succ]
      rw [hpow]
      nlinarith [hdm]

theorem decDigitsAcc_decimalChars_none (n : Nat) :
    decDigitsAcc (decimalChars n) none = some n := by
  obtain ⟨c, cs, hcons⟩ : ∃ c cs, decimalChars n = c :: cs := by
    cases h : decimalChars n with
    | nil => exact absurd h (decimalChars_ne_nil n)
    | cons c cs => exact ⟨c, cs, rfl⟩
  have hc : (decDigit? c).isSome := by
    apply decimalChars_digits n
    rw [hcons]; simp
  obtain ⟨d, hd⟩ := Option.isSome_iff_exists.mp hc
  have hzero : decDigitsAcc (c :: cs) none = decDigitsAcc (c :: cs) (some 0) := by
    simp [decDigitsAcc, hd]
  have := decDigitsAcc_decimalChars n 0
  rw [hcons] at this ⊢
  rw [hzero, this]
  simp

theorem jsParseUnsigned_eq_dec (cs : List Char)
    (h : ∀ c ∈ cs, (decDigit? c).isSome) :
    jsParseUnsigned cs = decDigitsAcc cs none := by
  unfold jsParseUnsigned
  split
  · rename_i rest
    have := h 'x' (by simp)
    exact absurd this (by decide)
  · rename_i rest
    have := h 'X' (by simp)
    exact absurd this (by decide)
  · rfl

theorem jsParseIntList_decimalChars (n : Nat) :
    jsParseIntList (decimalChars n) = some (n : Int) := by
  have hd := decimalChars_digits n
  obtain ⟨c, cs, hcons⟩ : ∃ c cs, decimalChars n = c :: cs := by
    cases h : decimalChars n with
    | nil => exact absurd h (decimalChars_ne_nil n)
    | cons c cs => exact ⟨c, cs, rfl⟩
  have hc : (decDigit? c).isSome := hd c (by rw [hcons]; simp)
  have hcws : jsWhitespace c = false := digit_not_ws c hc
  have hne := digit_ne c hc
  unfold jsParseIntList
  rw [hcons, List.dropWhile_cons, hcws]
  simp only [Bool.false_eq_true, if_false]
  have huns : jsParseUnsigned (c :: cs) = decDigitsAcc (c :: cs) none := by
    apply jsParseUnsigned_eq_dec
    intro x hx
    exact hd x (by rw [hcons]; exact hx)
  have hval : decDigitsAcc (c :: cs) none = some n := by
    rw [← hcons]; exact decDigitsAcc_decimalChars_none n
  split
  · rename_i rest heq
    injection heq with h1 h2
    exact absurd h1 hne.2.2.1
  · rename_i rest heq
    injection heq with h1 h2
    exact absurd h1 hne.2.2.2
  · rw [huns, hval]
    rfl

theorem jsParseInt_toString_int (k : Int) : jsParseInt (toString k) = some k := by
  cases k with
  | ofNat n =>
    have hdata : (toString (Int.ofNat n)).data = Nat.toDigits 10 n := rfl
    unfold jsParseInt
    rw [hdata, toDigits_eq_decimalChars, jsParseIntList_decimalChars]
    rfl
  | negSucc m =>
    have hdata : (toString (Int.negSucc m)).data = '-' :: Nat.toDigits 10 (m + 1) := rfl
    unfold jsParseInt
    rw [hdata, toDigits_eq_decimalChars]
    unfold jsParseIntList
    rw [List.dropWhile_cons]
    simp only [show jsWhitespace '-' = false from rfl, Bool.false_eq_true, if_false]
    have hunsg := jsParseUnsigned_eq_dec (decimalChars (m + 1)) (decimalChars_digits (m + 1))
    rw [hunsg, decDigitsAcc_decimalChars_none]
    simp [Int.negSucc_eq]

/-! ## Trim lemmas -/

theorem jsTrimList_of_no_ws (cs : List Char)
    (h : ∀ c ∈ cs, jsWhitespace c = false) : jsTrimList cs = cs := by
  unfold jsTrimList
  have h1 : cs.dropWhile jsWhitespace = cs := by
    cases cs with
    | nil => rfl
    | cons a l =>
      rw [List.dropWhile_cons, h a (by simp)]
      simp
  rw [h1]
  have h2 : cs.reverse.dropWhile jsWhitespace = cs.reverse := by
    cases hr : cs.reverse with
    | nil => rfl
    | cons a l =>
      have ha : a ∈ cs := by
        rw [← List.mem_reverse, hr]
        simp
      rw [List.dropWhile_cons, h a ha]
      simp
  rw [h2, List.reverse_reverse]

theorem jsTrim_of_no_ws (s : String)
    (h : ∀ c ∈ s.data, jsWhitespace c = false) : jsTrim s = s := by
  unfold jsTrim
  rw [jsTrimList_of_no_ws s.data h]

theorem jsTrimList_ne_nil (cs : List Char) (c : Char) (hc : c ∈ cs)
    (hws : jsWhitespace c = false) : jsTrimList cs ≠ [] := by
  unfold jsTrimList
  intro hcontra
  rw [List.reverse_eq_nil_iff, List.dropWhile_eq_nil_iff] at hcontra
  have hmem : c ∈ cs.dropWhile jsWhitespace := by
    have hsplit := List.takeWhile_append_dropWhile jsWhitespace cs
    rw [← hsplit, List.mem_append] at hc
    rcases hc with hc | hc
    · have := List.mem_takeWhile_imp hc
      rw [hws] at this
      exact absurd this (by simp)
    · exact hc
  have := hcontra c (by rw [List.mem_reverse]; exact hmem)
  rw [hws] at this
  exact absurd this (by simp)

/-! ## Split / join lemmas -/

theorem jsSplitList_ne_nil (sep : Char) (cs : List Char) :
    jsSplitList sep cs ≠ [] := by
  cases cs with
  | nil => simp [jsSplitList]
  | cons c l =>
    simp only [jsSplitList]
    cases h : jsSplitList sep l with
    | nil => simp
    | cons hh tt => by_cases hc : c = sep <;> simp [hc]

theorem jsSplitList_of_no_sep (sep : Char) (l : List Char)
    (h : ∀ c ∈ l, c ≠ sep) : jsSplitList sep l = [l] := by
  induction l with
  | nil => rfl
  | cons c cs ih =>
    simp only [jsSplitList]
    rw [ih (fun x hx => h x (by simp [hx]))]
    simp [h c (by simp)]

theorem jsSplitList_append (sep : Char) (a b : List Char)
    (ha : ∀ c ∈ a, c ≠ sep) :
    jsSplitList sep (a ++ sep :: b) = a :: jsSplitList sep b := by
  induction a with
  | nil =>
    simp only [List.nil_append, jsSplitList]
    cases h : jsSplitList sep b with
    | nil => exact absurd h (jsSplitList_ne_nil sep b)
    | cons hh tt => simp
  | cons c a ih =>
    have hc : c ≠ sep := ha c (by simp)
    simp only [List.cons_append, jsSplitList, List.append_eq]
    rw [ih (fun x hx => ha x (by simp [hx]))]
    simp [hc]

theorem jsJoinList_splitList (sep : Char) (cs : List Char) :
    jsJoinList sep (jsSplitList sep cs) = cs := by
  induction cs with
  | nil => rfl
  | cons c cs ih =>
    simp only [jsSplitList]
    cases h : jsSplitList sep cs with
    | nil => exact absurd h (jsSplitList_ne_nil sep cs)
    | cons hh tt =>
      rw [h] at ih
      change jsJoinList sep
        (if c = sep then [] :: hh :: tt else (c :: hh) :: tt) = c :: cs
      by_cases hc : c = sep
      · rw [if_pos hc, hc]
        show [] ++ sep :: jsJoinList sep (hh :: tt) = sep :: cs
        rw [List.nil_append, ih]
      · rw [if_neg hc]
        cases tt with
        | nil =>
          show c :: hh = c :: cs
          rw [show jsJoinList sep [hh] = hh from rfl] at ih
          rw [ih]
        | cons t1 ts =>
          show (c :: hh) ++ sep :: jsJoinList sep (t1 :: ts) = c :: cs
          rw [show jsJoinList sep (hh :: t1 :: ts) =
            hh ++ sep :: jsJoinList sep (t1 :: ts) from rfl] at ih
          rw [List.cons_append, ih]

theorem jsSplitList_joinList (sep : Char) (lines : List (List Char))
    (h : ∀ l ∈ lines, ∀ c ∈ l, c ≠ sep) (hne : lines ≠ []) :
    jsSplitList sep (jsJoinList sep lines) = lines := by
  induction lines with
  | nil => exact absurd rfl hne
  | cons l ls ih =>
    cases ls with
    | nil =>
      show jsSplitList sep l = [l]
      exact jsSplitList_of_no_sep sep l (h l (by simp))
    | cons l2 ls2 =>
      show jsSplitList sep (l ++ sep :: jsJoinList sep (l2 :: ls2)) = l :: l2 :: ls2
      rw [jsSplitList_append sep l _ (h l (by simp))]
      rw [ih (fun x hx => h x (by simp [hx])) (by simp)]

theorem mem_jsJoinList_head (sep : Char) (x : List Char)
    (xs : List (List Char)) (c : Char) (hc : c ∈ x) :
    c ∈ jsJoinList sep (x :: xs) := by
  cases xs with
  | nil => exact hc
  | cons y ys =>
    show c ∈ x ++ sep :: jsJoinList sep (y :: ys)
    exact List.mem_append_left _ hc

/-! ## `parseLine` lemmas -/

theorem toString_int_chars (k : Int) :
    ∀ c ∈ (toString k).data, c ≠ ':' ∧ c ≠ '\n' ∧ jsWhitespace c = false := by
  cases k with
  | ofNat n =>
    have hdata : (toString (Int.ofNat n)).data = Nat.toDigits 10 n := rfl
    rw [hdata, toDigits_eq_decimalChars]
    intro c hc
    have hd := decimalChars_digits n c hc
    exact ⟨(digit_ne c hd).1, (digit_ne c hd).2.1, digit_not_ws c hd⟩
  | negSucc m =>
    have hdata : (toString (Int.negSucc m)).data =
        '-' :: Nat.toDigits 10 (m + 1) := rfl
    rw [hdata, toDigits_eq_decimalChars]
    intro c hc
    rcases List.mem_cons.mp hc with hc | hc
    · subst hc
      exact ⟨by decide, by decide, by decide⟩
    · have hd := decimalChars_digits (m + 1) c hc
      exact ⟨(digit_ne c hd).1, (digit_ne c hd).2.1, digit_not_ws c hd⟩

theorem parseLine_split (k v : String) (hk : ∀ c ∈ k.data, c ≠ ':') :
    parseLine (k ++ ":" ++ v) =
      (jsParseInt (jsTrim k)).map (fun n => (n, jsTrim v)) := by
  have hdata : (k ++ ":" ++ v).data = k.data ++ ':' :: v.data := by
    simp
  obtain ⟨v1, vt, hv⟩ : ∃ v1 vt, jsSplitList ':' v.data = v1 :: vt := by
    cases h : jsSplitList ':' v.data with
    | nil => exact absurd h (jsSplitList_ne_nil ':' v.data)
    | cons v1 vt => exact ⟨v1, vt, rfl⟩
  have hsplit : jsSplit ':' (k ++ ":" ++ v) =
      k :: ((v1 :: vt).map (fun cs => (⟨cs⟩ : String))) := by
    unfold jsSplit
    rw [hdata, jsSplitList_append ':' k.data v.data hk, hv]
    rfl
  unfold parseLine
  rw [hsplit]
  have hjoin : jsJoin ':' ((v1 :: vt).map (fun cs => (⟨cs⟩ : String))) = v := by
    unfold jsJoin
    rw [List.map_map]
    have hfun : (String.data ∘ fun cs => (⟨cs⟩ : String)) = id := by
      funext cs
      rfl
    rw [hfun, List.map_id, ← hv, jsJoinList_splitList]
  show (match jsParseInt (jsTrim k) with
    | some n => some (n, jsTrim (jsJoin ':' ((v1 :: vt).map (fun cs => (⟨cs⟩ : String)))))
    | none => none) = (jsParseInt (jsTrim k)).map (fun n => (n, jsTrim v))
  rw [hjoin]
  cases jsParseInt (jsTrim k) <;> rfl

theorem parseLine_entry (k : Int) (v : String) (hv : jsTrim v = v) :
    parseLine (toString k ++ ":" ++ v) = some (k, v) := by
  have hk : ∀ c ∈ (toString k).data, c ≠ ':' :=
    fun c hc => (toString_int_chars k c hc).1
  rw [parseLine_split _ _ hk]
  have htrim : jsTrim (toString k) = toString k :=
    jsTrim_of_no_ws _ (fun c hc => (toString_int_chars k c hc).2.2)
  rw [htrim, jsParseInt_toString_int, hv]
  rfl

/-! ## `insertExpl` and fold lemmas -/

theorem insertExpl_of_fresh (m : List (Int × String)) (k : Int) (v : String)
    (h : ∀ p ∈ m, p.1 ≠ k) : insertExpl m k v = m ++ [(k, v)] := by
  unfold insertExpl
  have hfind : m.find? (fun p => p.1 = k) = none := by
    rw [List.find?_eq_none]
    intro p hp
    simp [h p hp]
  rw [hfind]
  rfl

theorem insertExpl_mem (m : List (Int × String)) (k : Int) (v : String)
    (p : Int × String) (hp : p ∈ insertExpl m k v) : p ∈ m ∨ p = (k, v) := by
  unfold insertExpl at hp
  split at hp
  · rw [List.mem_map] at hp
    obtain ⟨q, hq, hqe⟩ := hp
    by_cases hqk : q.1 = k
    · right
      rw [if_pos hqk] at hqe
      exact hqe.symm
    · left
      rw [if_neg hqk] at hqe
      rw [← hqe]
      exact hq
  · rw [List.mem_append] at hp
    rcases hp with hp | hp
    · exact Or.inl hp
    · right
      simpa using hp

theorem parse_foldl_mem (lines : List String) :
    ∀ (m : List (Int × String)) (p : Int × String),
      p ∈ lines.foldl
        (fun m line =>
          match parseLine line with
          | some kv => insertExpl m kv.1 kv.2
          | none => m) m →
      p ∈ m ∨ ∃ line, line ∈ lines ∧ parseLine line = some p := by
  induction lines with
  | nil =>
    intro m p hp
    exact Or.inl hp
  | cons l ls ih =>
    intro m p hp
    rw [List.foldl_cons] at hp
    rcases hl : parseLine l with _ | kv
    · rw [hl] at hp
      rcases ih _ p hp with h | ⟨line, hline, hpl⟩
      · exact Or.inl h
      · exact Or.inr ⟨line, by simp [hline], hpl⟩
    · rw [hl] at hp
      rcases ih _ p hp with h | ⟨line, hline, hpl⟩
      · rcases insertExpl_mem m kv.1 kv.2 p h with h2 | h2
        · exact Or.inl h2
        · refine Or.inr ⟨l, by simp, ?_⟩
          rw [hl, h2]
      · exact Or.inr ⟨line, by simp [hline], hpl⟩

theorem parse_foldl_append (l : List (Int × String)) :
    ∀ (m : List (Int × String)),
      (∀ p ∈ l, ∀ q ∈ m, q.1 ≠ p.1) →
      (l.map Prod.fst).Nodup →
      (∀ p ∈ l, parseLine (toString p.1 ++ ":" ++ p.2) = some p) →
      (l.map (fun p => toString p.1 ++ ":" ++ p.2)).foldl
        (fun m line =>
          match parseLine line with
          | some kv => insertExpl m kv.1 kv.2
          | none => m) m = m ++ l := by
  induction l with
  | nil =>
    intro m _ _ _
    simp
  | cons p ps ih =>
    intro m hfresh hnodup hparse
    rw [List.map_cons, List.foldl_cons]
    rw [show (match parseLine (toString p.1 ++ ":" ++ p.2) with
      | some kv => insertExpl m kv.1 kv.2
      | none => m) = insertExpl m p.1 p.2 by rw [hparse p (by simp)]]
    have happ : insertExpl m p.1 p.2 = m ++ [p] := by
      rw [insertExpl_of_fresh m p.1 p.2 (fun q hq => hfresh p (by simp) q hq)]
    rw [happ]
    rw [List.map_cons, List.nodup_cons] at hnodup
    rw [ih (m ++ [p]) ?_ hnodup.2 (fun q hq => hparse q (by simp [hq]))]
    · simp
    · intro q hq r hr
      rw [List.mem_append] at hr
      rcases hr with hr | hr
      · exact hfresh q (by simp [hq]) r hr
      · rw [List.mem_singleton] at hr
        subst hr
        intro hcontra
        exact hnodup.1 (hcontra ▸ List.mem_map_of_mem Prod.fst hq)

/-! ## Claim C4 -/

/-- Claim C4, amended: formatting a `lineExplanations` mapping to one
`"n:text"` line per entry and re-parsing it with the Save parser yields the
original mapping, provided the explanation texts contain no embedded newline
AND carry no leading or trailing whitespace (the parser trims each parsed
text, so a text that trimming changes does not survive the round trip). -/
theorem c4_roundtrip_amended (l : List (Int × String))
    (hnodup : (l.map Prod.fst).Nodup)
    (hnl : ∀ p ∈ l, ∀ c ∈ p.2.data, c ≠ '\n')
    (htrim : ∀ p ∈ l, jsTrim p.2 = p.2) :
    parseLineExplanations (formatLineExplanationsForEdit l) = l := by
  cases l with
  | nil => decide
  | cons p ps =>
    have hdata : (formatLineExplanationsForEdit (p :: ps)).data =
        jsJoinList '\n'
          ((p :: ps).map (fun q => (toString q.1 ++ ":" ++ q.2).data)) := by
      unfold formatLineExplanationsForEdit jsJoin
      rw [List.map_map]
      rfl
    have hcolon : (':' : Char) ∈ (formatLineExplanationsForEdit (p :: ps)).data := by
      rw [hdata, List.map_cons]
      apply mem_jsJoinList_head
      simp
    have hguard : ¬ jsTrim (formatLineExplanationsForEdit (p :: ps)) = "" := by
      intro hcontra
      have h2 : jsTrimList (formatLineExplanationsForEdit (p :: ps)).data = [] :=
        congrArg String.data hcontra
      exact jsTrimList_ne_nil _ ':' hcolon (by decide) h2
    have hfree : ∀ e ∈ (p :: ps).map (fun q => (toString q.1 ++ ":" ++ q.2).data),
        ∀ c ∈ e, c ≠ '\n' := by
      intro e he c hc
      rw [List.mem_map] at he
      obtain ⟨q, hq, hqe⟩ := he
      rw [← hqe] at hc
      rw [show (toString q.1 ++ ":" ++ q.2).data =
        (toString q.1).data ++ ':' :: q.2.data by simp] at hc
      rw [List.mem_append] at hc
      rcases hc with hc | hc
      · exact (toString_int_chars q.1 c hc).2.1
      · rcases List.mem_cons.mp hc with hc | hc
        · subst hc
          decide
        · exact hnl q hq c hc
    have hlines : jsSplit '\n' (formatLineExplanationsForEdit (p :: ps)) =
        (p :: ps).map (fun q => toString q.1 ++ ":" ++ q.2) := by
      unfold jsSplit
      rw [hdata, jsSplitList_joinList '\n' _ hfree (by simp), List.map_map]
      rfl
    unfold parseLineExplanations
    rw [if_neg hguard, hlines]
    have hfold := parse_foldl_append (p :: ps) [] (by simp) hnodup
      (fun q hq => parseLine_entry q.1 q.2 (htrim q hq))
    simpa using hfold

/-- Witness for C4's amended round trip at a concrete two-entry mapping. -/
theorem c4_roundtrip_witness :
    parseLineExplanations
        (formatLineExplanationsForEdit [((1 : Int), "uses x"), ((3 : Int), "a:b")]) =
      [((1 : Int), "uses x"), ((3 : Int), "a:b")] :=
  c4_roundtrip_amended _ (by decide) (by decide) (by decide)

/-- Counterexample to C4 as stated: the one-entry mapping `1 ↦ " x"` has no
embedded newline, yet the round trip returns `1 ↦ "x"` because the Save
parser trims the explanation text. -/
theorem c4_counterexample :
    parseLineExplanations (formatLineExplanationsForEdit [((1 : Int), " x")]) =
      [((1 : Int), "x")] ∧
    ((1 : Int), (" x" : String)) ≠ ((1 : Int), ("x" : String)) ∧
    (∀ c ∈ (" x" : String).data, c ≠ '\n') := by decide

/-! ## Claim C7 -/

/-- Claim C7: the line-explanation parser drops `"abc:hello"` (non-integer
line number), parses `"3:a:b"` to `3 ↦ "a:b"`, and in general splits a line
at its first colon only, trimming both the number part and the explanation
part. -/
theorem c7_first_colon :
    parseLine "abc:hello" = none ∧
    parseLine "3:a:b" = some ((3 : Int), "a:b") ∧
    (∀ k v : String, (∀ c ∈ k.data, c ≠ ':') →
      parseLine (k ++ ":" ++ v) =
        (jsParseInt (jsTrim k)).map (fun n => (n, jsTrim v))) :=
  ⟨by decide, by decide, parseLine_split⟩

/-- Witness for C7's general first-colon clause at a concrete line. -/
theorem c7_witness :
    parseLine ("3" ++ ":" ++ "a:b") =
      (jsParseInt (jsTrim "3")).map (fun n => (n, jsTrim "a:b")) :=
  c7_first_colon.2.2 "3" "a:b" (by decide)

/-! ## Claim C8 -/

/-- Counterexample to C8 as stated: the Save/modal parser accepts the line
`"0:zero"`, producing the key `0`, which is not positive (and `"-2:x"`
similarly yields a negative key). -/
theorem c8_counterexample :
    parseLineExplanations "0:zero" = [((0 : Int), "zero")] ∧
    ¬ (0 : Int) > 0 ∧
    parseLineExplanations "-2:x" = [((-2 : Int), "x")] := by decide

/-- Claim C8, amended: every entry of a mapping the client constructs (both
the inline-edit Save parser and the modal submit parser run the same code,
embedded as `parseLineExplanations`) is the successful parse of one of the
textarea's lines — an integer key produced by `parseInt` — but nothing
constrains the keys to be positive. -/
theorem c8_keys_amended (text : String) (p : Int × String)
    (hp : p ∈ parseLineExplanations text) :
    ∃ line, line ∈ jsSplit '\n' text ∧ parseLine line = some p := by
  unfold parseLineExplanations at hp
  split at hp
  · exact absurd hp (by simp)
  · rcases parse_foldl_mem (jsSplit '\n' text) [] p hp with h | h
    · exact absurd h (by simp)
    · exact h

/-- Witness for C8's amended key characterisation at a concrete textarea
text. -/
theorem c8_witness :
    ∃ line, line ∈ jsSplit '\n' "5:five" ∧
      parseLine line = some ((5 : Int), "five") :=
  c8_keys_amended "5:five" ((5 : Int), "five") (by decide)

/-! ## Claim C1 -/

/-- Counterexample to C1 as stated: a 2xx response whose body is empty makes
`deleteCodeBlock` reject — `apiRequest` always awaits `response.json()`,
which fails on an empty body — even though the status 204 lies in 200-299;
with a JSON body (`"null"`) the same status resolves. -/
theorem c1_counterexample :
    deleteCodeBlock 1 (fun _ => FetchResult.response 204 "") =
      Except.error "SyntaxError: unexpected end of JSON input" ∧
    deleteCodeBlock 1 (fun _ => FetchResult.response 204 "null") =
      Except.ok () := ⟨rfl, rfl⟩

/-- Claim C1, amended: `deleteBlock` issues a DELETE to `/codeblocks/{id}`
and resolves (returning no value) exactly when the HTTP status is in
200-299 AND the response body parses as JSON; it fails on transport
failure, on a non-2xx status, and also on a 2xx response whose body is not
valid JSON (in particular an empty body). -/
theorem c1_delete_amended (blockId : Int) (fetch : Request → FetchResult) :
    (deleteRequest blockId).method = "DELETE" ∧
    (deleteRequest blockId).endpoint = "/codeblocks/" ++ toString blockId ∧
    (deleteCodeBlock blockId fetch = Except.ok () ↔
      ∃ status body,
        fetch (deleteRequest blockId) = FetchResult.response status body ∧
        200 ≤ status ∧ status < 300 ∧ isValidJson body = true) := by
  refine ⟨rfl, rfl, ?_⟩
  unfold deleteCodeBlock
  cases hf : fetch (deleteRequest blockId) with
  | transportFailure => simp [apiRequest, Except.map]
  | response status body =>
    simp only [apiRequest]
    by_cases h2xx : 200 ≤ status ∧ status < 300
    · rw [if_pos h2xx]
      by_cases hjson : isValidJson body
      · simp only [hjson, if_true, Except.map, FetchResult.response.injEq]
        constructor
        · intro _
          exact ⟨status, body, ⟨rfl, rfl⟩, h2xx.1, h2xx.2, hjson⟩
        · intro _
          trivial
      · simp [hjson, Except.map]
    · rw [if_neg h2xx]
      constructor
      · intro h
        exact absurd h (by simp [Except.map])
      · rintro ⟨st, bd, heq, hlo, hhi, _⟩
        injection heq with h1 h2
        subst h1
        exact (h2xx ⟨hlo, hhi⟩).elim

/-! ## Claim C2 -/

/-- Counterexample to C2 as stated: in `emptyExplBlock` the mapping has an
entry for line 1 (the empty string), yet the rendered line 1 is not
clickable — `hasExplanation` tests JS truthiness, and the empty string is
falsy — and clicking it opens no popup. -/
theorem c2_counterexample :
    jsLookup emptyExplBlock.lineExplanations 1 = some "" ∧
    (renderedCodeLines emptyExplBlock).map (fun e => (e.1, e.2.1)) =
      [(1, false)] ∧
    handleLineClick emptyExplBlock 1 = none := by decide

/-- Claim C2, amended: the line rendered at 1-based position i in read mode
is clickable iff `lineExplanations` has a NON-EMPTY (truthy) entry for key
i, and clicking such a line shows a popup containing exactly that entry's
text (an entry that is the empty string makes the line non-clickable and
shows nothing). -/
theorem c2_clickable_amended (b : CodeBlock) (idx : Nat)
    (entry : Nat × Bool × String)
    (hget : (renderedCodeLines b).get? idx = some entry) :
    entry.1 = idx + 1 ∧
    (entry.2.1 = true ↔
      ∃ s, jsLookup b.lineExplanations (Int.ofNat (idx + 1)) = some s ∧ s ≠ "") ∧
    (∀ s, jsLookup b.lineExplanations (Int.ofNat (idx + 1)) = some s → s ≠ "" →
      handleLineClick b (Int.ofNat (idx + 1)) = some s) := by
  unfold renderedCodeLines at hget
  rw [List.get?_map, List.get?_enum] at hget
  cases hline : (jsSplit '\n' b.code).get? idx with
  | none =>
    rw [hline] at hget
    simp at hget
  | some line =>
    rw [hline] at hget
    simp only [Option.map_some'] at hget
    injection hget with hentry
    subst hentry
    refine ⟨rfl, ?_, ?_⟩
    · show hasExplanation b (Int.ofNat (idx + 1)) = true ↔ _
      unfold hasExplanation truthyStr
      cases jsLookup b.lineExplanations (Int.ofNat (idx + 1)) with
      | none => simp
      | some s => simp
    · intro s hs hne
      unfold handleLineClick
      rw [hs]
      show (if s = "" then (none : Option String) else some s) = some s
      rw [if_neg hne]

/-- Witness for C2's amended clickability at a concrete block: line 1 of
`sampleBlock1` is clickable and clicking it shows its explanation. -/
theorem c2_witness :
    ((1 : Nat), true,
        codeLineHTML 1 "print(1)" true).1 = 0 + 1 ∧
    (((1 : Nat), true, codeLineHTML 1 "print(1)" true).2.1 = true ↔
      ∃ s, jsLookup sampleBlock1.lineExplanations (Int.ofNat (0 + 1)) = some s ∧ s ≠ "") ∧
    (∀ s, jsLookup sampleBlock1.lineExplanations (Int.ofNat (0 + 1)) = some s → s ≠ "" →
      handleLineClick sampleBlock1 (Int.ofNat (0 + 1)) = some s) :=
  c2_clickable_amended sampleBlock1 0 (1, true, codeLineHTML 1 "print(1)" true)
    (by decide)

/-! ## Claim C3 -/

/-- Claim C3: a block appears in the rendered sidebar list iff its
(lowercased) title or category contains the lowercased search string and the
selected category is empty or equals the block's category exactly; when no
block qualifies, the placeholder message is rendered instead of an empty
list. -/
theorem c3_filtering (blocks : List CodeBlock) (searchValue category : String)
    (currentBlockId : Option Int) :
    (∀ b, b ∈ filteredBlocks blocks searchValue category ↔
      b ∈ blocks ∧
      (jsIncludes (jsToLower b.title) (jsToLower searchValue) = true ∨
        jsIncludes (jsToLower b.category) (jsToLower searchValue) = true) ∧
      (category = "" ∨ b.category = category)) ∧
    (filteredBlocks blocks searchValue category = [] →
      renderBlocksListHTML blocks searchValue category currentBlockId =
        noBlocksHTML) ∧
    (∀ b, b ∈ filteredBlocks blocks searchValue category →
      renderBlocksListHTML blocks searchValue category currentBlockId =
        String.join ((filteredBlocks blocks searchValue category).map
          (blockItemHTML currentBlockId))) := by
  refine ⟨?_, ?_, ?_⟩
  · intro b
    unfold filteredBlocks
    rw [List.mem_filter]
    simp [Bool.and_eq_true, Bool.or_eq_true]
  · intro hempty
    unfold renderBlocksListHTML
    rw [if_pos (by rw [hempty]; rfl)]
  · intro b hb
    unfold renderBlocksListHTML
    rw [if_neg ?_]
    intro hcontra
    rw [List.isEmpty_iff] at hcontra
    rw [hcontra] at hb
    exact absurd hb (by simp)

/-- Witness for C3 at a concrete store: searching "hel" keeps `sampleBlock1`
and renders its entry; searching "zzz" keeps nothing and renders the
placeholder. -/
theorem c3_witness :
    sampleBlock1 ∈ filteredBlocks [sampleBlock1, sampleBlock2] "hel" "" ∧
    renderBlocksListHTML [sampleBlock1, sampleBlock2] "hel" "" none =
      String.join ((filteredBlocks [sampleBlock1, sampleBlock2] "hel" "").map
        (blockItemHTML none)) ∧
    renderBlocksListHTML [sampleBlock1, sampleBlock2] "zzz" "" none =
      noBlocksHTML := by
  have h := c3_filtering [sampleBlock1, sampleBlock2] "hel" "" none
  have hmem : sampleBlock1 ∈ filteredBlocks [sampleBlock1, sampleBlock2] "hel" "" :=
    (h.1 sampleBlock1).mpr (by decide)
  have h2 := c3_filtering [sampleBlock1, sampleBlock2] "zzz" "" none
  exact ⟨hmem, h.2.2 sampleBlock1 hmem, h2.2.1 (by decide)⟩

/-! ## Claim C9 -/

/-- Claim C9: in read mode each code line's text passes through
`escapeHtml` (whose output contains no raw markup characters), while the
block title, the general explanation and the popup's explanation text are
interpolated into the markup untouched, so markup in those three fields
reaches the document as markup. -/
theorem c9_escaping :
    (∀ s : String, ¬ '<' ∈ (escapeHtml s).data ∧ ¬ '>' ∈ (escapeHtml s).data) ∧
    (∀ (n : Nat) (line : String) (cl : Bool),
      codeLineHTML n line cl =
        "<div class=\"code-line " ++ (if cl then "clickable" else "")
          ++ "\" data-line-number=\"" ++ toString n
          ++ "\"><div class=\"code-line-number\"></div><div class=\"code-line-text\">"
          ++ escapeHtml line ++ "</div></div>") ∧
    (∀ b : CodeBlock, renderReadViewHTML b =
      readViewSeg1 ++ b.title ++ readViewSeg2 ++ toString b.id ++ readViewSeg3
        ++ String.join ((renderedCodeLines b).map (fun t => t.2.2))
        ++ readViewSeg4 ++ b.explanation ++ readViewSeg5) ∧
    (∀ (n : Int) (e : String),
      popupHTML n e = popupSeg1 ++ toString n ++ popupSeg2 ++ e ++ popupSeg3) ∧
    escapeHtml "<i>" = "&lt;i&gt;" ∧
    jsIncludes (renderReadViewHTML
      { id := 1, title := "<img>", category := "", code := "<img>",
        explanation := "", lineExplanations := [] }) "<img>" = true ∧
    jsIncludes (codeLineHTML 1 "<img>" false) "<img>" = false := by
  refine ⟨?_, fun _ _ _ => rfl, fun _ => rfl, fun _ _ => rfl,
    by decide, by decide, by decide⟩
  intro s
  constructor <;> intro hmem <;>
  · unfold escapeHtml at hmem
    rw [show ((⟨(s.data.map escapeHtmlChar).flatten⟩ : String)).data =
      (s.data.map escapeHtmlChar).flatten from rfl] at hmem
    rw [List.mem_flatten] at hmem
    obtain ⟨chunk, hchunk, hc⟩ := hmem
    rw [List.mem_map] at hchunk
    obtain ⟨a, _, hae⟩ := hchunk
    subst hae
    unfold escapeHtmlChar at hc
    split at hc
    · exact absurd hc (by decide)
    · split at hc
      · exact absurd hc (by decide)
      · split at hc
        · exact absurd hc (by decide)
        · rename_i h1 h2 h3
          rw [List.mem_singleton] at hc
          subst hc
          first
            | exact h2 rfl
            | exact h3 rfl

/-! ## Claim C5 -/

/-- Claim C5: for each user-triggered operation (load, delete, inline-edit
update, modal create, modal update), an HTTP 500 answer to that operation's
own call leaves the block list, the selection (`currentBlockId`,
`isEditMode`), the rendered views and the modal flag unchanged, appends
exactly one alert, and performs no further step: the only API call logged is
the failing one (no reload), and no view transition happens — all expressed
by the full post-state equation. -/
theorem c5_http500_aborts :
    (∀ body, apiRequest (FetchResult.response 500 body) =
      Except.error http500Error) ∧
    (∀ (env : Backend) (s : AppState),
      env.listResult = Except.error http500Error →
      loadCodeBlocksE env s = Except.ok
        { s with apiCalls := s.apiCalls ++ [listRequest],
                 alerts := s.alerts ++ [loadFailAlert] }) ∧
    (∀ (env : Backend) (s : AppState) (blockId : Int),
      env.deleteResult = Except.error http500Error →
      handleDeleteE true blockId env s = Except.ok
        { s with apiCalls := s.apiCalls ++ [deleteRequest blockId],
                 alerts := s.alerts ++ [deleteFailAlert] }) ∧
    (∀ (env : Backend) (s : AppState) (c e t : String) (cid : Int) (b : CodeBlock),
      s.currentBlockId = some cid →
      s.codeBlocks.find? (fun x => x.id = cid) = some b →
      env.updateResult = Except.error http500Error →
      saveEditE c e t env s = Except.ok
        { s with apiCalls := s.apiCalls ++ [putRequest cid (saveEditPayload c e t)],
                 alerts := s.alerts ++ [saveEditFailAlert] }) ∧
    (∀ (env : Backend) (s : AppState) (ti ca co ex lt : String),
      env.createResult = Except.error http500Error →
      saveCodeBlockE ti ca co ex lt none env s = Except.ok
        { s with apiCalls := s.apiCalls ++ [postRequest (modalPayload ti ca co ex lt)],
                 alerts := s.alerts ++ [saveBlockFailAlert] }) ∧
    (∀ (env : Backend) (s : AppState) (ti ca co ex lt : String) (id : Int),
      env.updateResult = Except.error http500Error →
      saveCodeBlockE ti ca co ex lt (some id) env s = Except.ok
        { s with apiCalls := s.apiCalls ++ [putRequest id (modalPayload ti ca co ex lt)],
                 alerts := s.alerts ++ [saveBlockFailAlert] }) := by
  refine ⟨?_, ?_, ?_, ?_, ?_, ?_⟩
  · intro body
    simp only [apiRequest]
    rw [if_neg (by omega)]
    rfl
  · intro env s h
    unfold loadCodeBlocksE logCall
    rw [h]
  · intro env s blockId h
    unfold handleDeleteE logCall
    rw [h]
    rfl
  · intro env s c e t cid b h1 h2 h3
    simp only [saveEditE, logCall, h1, h2, h3]
  · intro env s ti ca co ex lt h
    unfold saveCodeBlockE logCall
    rw [h]
  · intro env s ti ca co ex lt id h
    unfold saveCodeBlockE logCall
    rw [h]

/-- Witness for C5: the 500-answering backend `errorBackend` leaves the
concrete state `sampleState` untouched apart from one alert and the one
logged call, for each of the five operations. -/
theorem c5_witness :
    loadCodeBlocksE errorBackend sampleState = Except.ok
      { sampleState with apiCalls := sampleState.apiCalls ++ [listRequest],
                         alerts := sampleState.alerts ++ [loadFailAlert] } ∧
    handleDeleteE true 1 errorBackend sampleState = Except.ok
      { sampleState with apiCalls := sampleState.apiCalls ++ [deleteRequest 1],
                         alerts := sampleState.alerts ++ [deleteFailAlert] } ∧
    saveEditE "c" "e" "1:x" errorBackend sampleState = Except.ok
      { sampleState with
          apiCalls := sampleState.apiCalls ++ [putRequest 1 (saveEditPayload "c" "e" "1:x")],
          alerts := sampleState.alerts ++ [saveEditFailAlert] } ∧
    saveCodeBlockE "T" "C" "x" "E" "" none errorBackend sampleState = Except.ok
      { sampleState with
          apiCalls := sampleState.apiCalls ++ [postRequest (modalPayload "T" "C" "x" "E" "")],
          alerts := sampleState.alerts ++ [saveBlockFailAlert] } :=
  ⟨c5_http500_aborts.2.1 errorBackend sampleState rfl,
   c5_http500_aborts.2.2.1 errorBackend sampleState 1 rfl,
   c5_http500_aborts.2.2.2.1 errorBackend sampleState "c" "e" "1:x" 1 sampleBlock1
     rfl (by decide) rfl,
   c5_http500_aborts.2.2.2.2.1 errorBackend sampleState "T" "C" "x" "E" "" rfl⟩

/-! ## Claim C6 -/

/-- Counterexample to C6 as stated: the inline-edit Save payload carries
three fields (code, explanation, lineExplanations), not four — in
particular no title is sent. -/
theorem c6_counterexample :
    (saveEditPayload "c" "e" "1:x").title = none ∧
    (saveEditPayload "c" "e" "1:x").fieldsSet = 3 ∧ (3 : Nat) ≠ 4 := by decide

/-- Claim C6, amended: pressing Save in inline edit mode on the selected
block parses the line-explanation textarea into a mapping, calls
updateBlock for that block's id with the THREE editable fields (code,
explanation, lineExplanations — the inline edit view has no title field and
none is sent), then reloads the store, sets `isEditMode` to false and
redisplays the block in read mode. -/
theorem c6_save_amended (env : Backend) (s : AppState)
    (newCode newExplanation lineText : String) (cid : Int) (b : CodeBlock)
    (blocks2 : List CodeBlock) (ub : CodeBlock) (b2 : CodeBlock)
    (h1 : s.currentBlockId = some cid)
    (h2 : s.codeBlocks.find? (fun x => x.id = cid) = some b)
    (h3 : env.updateResult = Except.ok ub)
    (h4 : env.listResult = Except.ok blocks2)
    (h5 : blocks2.find? (fun x => x.id = cid) = some b2) :
    (saveEditPayload newCode newExplanation lineText).title = none ∧
    (saveEditPayload newCode newExplanation lineText).code = some newCode ∧
    (saveEditPayload newCode newExplanation lineText).explanation =
      some newExplanation ∧
    (saveEditPayload newCode newExplanation lineText).lineExplanations =
      some (parseLineExplanations lineText) ∧
    (saveEditPayload newCode newExplanation lineText).fieldsSet = 3 ∧
    saveEditE newCode newExplanation lineText env s = Except.ok
      { s with
          codeBlocks := blocks2,
          sidebar := renderBlocksListHTML blocks2 s.searchValue s.categorySel
            s.currentBlockId,
          categoryOptions := dedupFirstSeen (blocks2.map CodeBlock.category),
          isEditMode := false,
          currentBlockId := some cid,
          viewer := renderReadViewHTML b2,
          apiCalls := s.apiCalls ++
            [putRequest cid (saveEditPayload newCode newExplanation lineText),
              listRequest] } := by
  refine ⟨rfl, rfl, rfl, rfl, rfl, ?_⟩
  simp only [saveEditE, logCall, loadCodeBlocksE, displayCodeBlock, h1, h2, h3,
    h4, h5]
  simp [List.append_assoc]

/-- Witness for C6's amended Save behaviour at a concrete state and
backend. -/
theorem c6_witness :
    saveEditE "nc" "ne" "1:x" okBackend sampleState = Except.ok
      { sampleState with
          codeBlocks := [sampleBlock1, sampleBlock2],
          sidebar := renderBlocksListHTML [sampleBlock1, sampleBlock2]
            sampleState.searchValue sampleState.categorySel
            sampleState.currentBlockId,
          categoryOptions :=
            dedupFirstSeen ([sampleBlock1, sampleBlock2].map CodeBlock.category),
          isEditMode := false,
          currentBlockId := some 1,
          viewer := renderReadViewHTML sampleBlock1,
          apiCalls := sampleState.apiCalls ++
            [putRequest 1 (saveEditPayload "nc" "ne" "1:x"), listRequest] } :=
  (c6_save_amended okBackend sampleState "nc" "ne" "1:x" 1 sampleBlock1
    [sampleBlock1, sampleBlock2] sampleBlock1 sampleBlock1 rfl (by decide) rfl
    rfl (by decide)).2.2.2.2.2

/-! ## Claim C10 -/

/-- Claim C10: `loadCodeBlocks` catches every failure of its GET internally
(one alert) and never rejects; consequently a mutation handler's own catch
branch runs only when the mutation call fails, and when the mutation
succeeds but the reload fails, the handler still performs its remaining
view-state transitions: `handleDelete` still clears the selection and the
detail view, `saveEdit` still leaves edit mode and redisplays the (stale)
block, the modal submit still closes the modal — in each case with the
reload's alert, not the handler's own. -/
theorem c10_load_never_rejects :
    (∀ (env : Backend) (s : AppState), (loadCodeBlocksE env s).isOk = true) ∧
    (∀ (env : Backend) (s : AppState) (blockId : Int) (msg : String),
      env.deleteResult = Except.ok () → env.listResult = Except.error msg →
      handleDeleteE true blockId env s = Except.ok
        { s with
            apiCalls := s.apiCalls ++ [deleteRequest blockId, listRequest],
            alerts := s.alerts ++ [loadFailAlert],
            viewer := noSelectionHTML,
            currentBlockId := none }) ∧
    (∀ (env : Backend) (s : AppState) (c e t : String) (cid : Int)
        (b ub : CodeBlock) (msg : String),
      s.currentBlockId = some cid →
      s.codeBlocks.find? (fun x => x.id = cid) = some b →
      env.updateResult = Except.ok ub → env.listResult = Except.error msg →
      saveEditE c e t env s = Except.ok
        { s with
            apiCalls := s.apiCalls ++
              [putRequest cid (saveEditPayload c e t), listRequest],
            alerts := s.alerts ++ [loadFailAlert],
            isEditMode := false,
            currentBlockId := some cid,
            viewer := renderReadViewHTML b }) ∧
    (∀ (env : Backend) (s : AppState) (ti ca co ex lt : String)
        (nb : CodeBlock) (msg : String),
      env.createResult = Except.ok nb → env.listResult = Except.error msg →
      saveCodeBlockE ti ca co ex lt none env s = Except.ok
        { s with
            apiCalls := s.apiCalls ++
              [postRequest (modalPayload ti ca co ex lt), listRequest],
            alerts := s.alerts ++ [loadFailAlert],
            modalOpen := false }) := by
  refine ⟨?_, ?_, ?_, ?_⟩
  · intro env s
    unfold loadCodeBlocksE logCall
    cases henv : env.listResult <;> rfl
  · intro env s blockId msg hdel hlist
    unfold handleDeleteE loadCodeBlocksE logCall
    rw [hdel, hlist]
    simp [List.append_assoc]
  · intro env s c e t cid b ub msg h1 h2 hup hlist
    simp only [saveEditE, logCall, loadCodeBlocksE, displayCodeBlock, h1, h2,
      hup, hlist]
    simp [List.append_assoc]
  · intro env s ti ca co ex lt nb msg hcr hlist
    unfold saveCodeBlockE loadCodeBlocksE logCall
    rw [hcr, hlist]
    simp [List.append_assoc]

/-- Witness for C10 at a concrete state: with mutations succeeding and the
reload failing, `handleDelete` still clears the selection and the viewer,
and `saveEdit` still exits edit mode and redisplays the stale block. -/
theorem c10_witness :
    (loadCodeBlocksE reloadFailBackend sampleState).isOk = true ∧
    handleDeleteE true 1 reloadFailBackend sampleState = Except.ok
      { sampleState with
          apiCalls := sampleState.apiCalls ++ [deleteRequest 1, listRequest],
          alerts := sampleState.alerts ++ [loadFailAlert],
          viewer := noSelectionHTML,
          currentBlockId := none } ∧
    saveEditE "c" "e" "" reloadFailBackend sampleState = Except.ok
      { sampleState with
          apiCalls := sampleState.apiCalls ++
            [putRequest 1 (saveEditPayload "c" "e" ""), listRequest],
          alerts := sampleState.alerts ++ [loadFailAlert],
          isEditMode := false,
          currentBlockId := some 1,
          viewer := renderReadViewHTML sampleBlock1 } :=
  ⟨c10_load_never_rejects.1 reloadFailBackend sampleState,
   c10_load_never_rejects.2.1 reloadFailBackend sampleState 1 http500Error rfl rfl,
   c10_load_never_rejects.2.2.1 reloadFailBackend sampleState "c" "e" "" 1
     sampleBlock1 sampleBlock1 http500Error rfl (by decide) rfl rfl⟩

end CodeBlocksJs
